import Mathlib

/-!
Verification of the Fortuna-derived PRNG (`sjcl.prng`) against its
natural-language specification.

The definitions below are a shallow embedding of the JavaScript source.
JavaScript numbers used as integers are modelled as `Int`/`Nat` with explicit
32-bit wraps where the source applies `| 0` or `>>>`.  The external
environment (wall clock, platform random source) is passed explicitly as an
`Env`.  The SHA-256 and AES primitives live outside the embedded source file;
their digests/ciphertexts are opaque to the generator's control logic and are
modelled as deterministic stand-in functions (see their doc comments).
-/

namespace Sjcl

/-- JavaScript `ToInt32` (the `| 0` coercion) on integers. -/
def toInt32 (v : Int) : Int :=
  (v + 2147483648) % 4294967296 - 2147483648

/-- Number of binary digits; mirrors the source's `while (tmp>0) { e++; tmp = tmp >>> 1 }`
loop after the first shift, which operates on a 32-bit unsigned value.  The
first argument is recursion fuel; 32 units cover every 32-bit value, so the
fuel never runs out on the values the estimator feeds in. -/
def bitLen : Nat → Nat → Nat
  | 0, _ => 0
  | fuel + 1, n => if n = 0 then 0 else 1 + bitLen fuel (n / 2)

/-- The source's per-element entropy estimator: count 1 for `tmp > 0`, then
shift `tmp >>> 1` (a `ToUint32` conversion followed by halving) until zero. -/
def entropyBitsOfWord (v : Int) : Nat :=
  if 0 < v then 1 + bitLen 32 ((v % 4294967296 / 2).toNat) else 0

/-- Entropy estimate of a word sequence, as in `addEntropy`'s object branch. -/
def entropyEstimate (l : List Int) : Int :=
  ((l.map entropyBitsOfWord).sum : Nat)

/-- Modelled from the spec: `sjcl.hash.sha256` is repository code not under
`src/`; the spec describes it as a streaming SHA-256 accumulator whose 256-bit
digest (eight 32-bit words) is opaque to the PRNG control flow.  A pool is
represented by the transcript of words fed into it, and the digest by an
arbitrary-but-fixed deterministic function of that transcript. -/
def sha256Digest (ws : List Int) : List Int :=
  [(ws.length : Int), ws.sum % 4294967296, 0, 0, 0, 0, 0, 0]

/-- Modelled from the spec: `sjcl.cipher.aes` is repository code not under
`src/`; the spec describes it as AES-256 producing a four-word block from the
counter under the working key.  The block value is opaque to the PRNG control
flow and is modelled as a deterministic function of key and block. -/
def aesEncrypt (key : List Int) (block : List Int) : List Int :=
  block.map (fun w => (w + key.sum) % 4294967296)

/-- Readiness flag `_NOT_READY`. -/
def NOT_READY : Nat := 0

/-- Readiness flag `_READY`. -/
def READY : Nat := 1

/-- Readiness flag `_REQUIRES_RESEED`. -/
def REQUIRES_RESEED : Nat := 2

/-- `_MAX_WORDS_PER_BURST`. -/
def MAX_WORDS_PER_BURST : Nat := 65536

/-- `_PARANOIA_LEVELS`. -/
def PARANOIA_LEVELS : List Int := [0, 48, 64, 96, 128, 192, 256, 384, 512, 768, 1024]

/-- `_MILLISECONDS_PER_RESEED`. -/
def MILLISECONDS_PER_RESEED : Int := 30000

/-- `_BITS_PER_RESEED`. -/
def BITS_PER_RESEED : Int := 80

/-- The host environment visible to one generator operation: the wall clock
(`Date.valueOf`) and the platform random word source (`_platformPRNG`),
indexed by draw number within the operation. -/
structure Env where
  now : Int
  rand : Nat → Int

/-- The generator state (`sjcl.prng` instance fields).  `gates` and
`lastParticipants` are ghost fields: `gates` counts completed `_gate`
operations and `lastParticipants` records which pool indices the most recent
`_reseedFromPools` drained; neither influences any behaviour. -/
structure PrngState where
  pools : List (List Int)
  poolEntropy : List Int
  reseedCount : Nat
  robins : List (String × Nat)
  eventId : Nat
  collectorIds : List (String × Nat)
  collectorIdNext : Nat
  strength : Int
  poolStrength : Int
  nextReseed : Int
  key : List Int
  counter : List Int
  cipher : Option (List Int)
  defaultParanoia : Nat
  collectorsStarted : Bool
  progressCallbacks : List (Nat × Nat)
  seededCallbacks : List (Nat × Nat)
  callbackI : Nat
  gates : Nat
  lastParticipants : List Nat

/-- First-match association lookup (JavaScript object property read). -/
def lookupS (m : List (String × Nat)) (k : String) : Option Nat :=
  match m with
  | [] => none
  | e :: rest => if e.1 = k then some e.2 else lookupS rest k

/-- Association update (JavaScript object property write): replace the first
binding of the key, or append a fresh binding. -/
def setAssoc (m : List (String × Nat)) (k : String) (v : Nat) : List (String × Nat) :=
  match m with
  | [] => [(k, v)]
  | e :: rest => if e.1 = k then (k, v) :: rest else e :: setAssoc rest k v

/-- `source = source || "user"`: an absent or empty source tag falls back to
the default. -/
def resolveSource (src : Option String) : String :=
  match src with
  | none => "user"
  | some s => if s = "" then "user" else s

/-- JavaScript `a >= b` where `b` may be `undefined` (`none`): any comparison
with `undefined` is false. -/
def jsGE (a : Int) (b : Option Int) : Bool :=
  match b with
  | some v => decide (v ≤ a)
  | none => false

/-- JavaScript `a > b` where `b` may be `undefined` (`none`). -/
def jsGT (a : Int) (b : Option Int) : Bool :=
  match b with
  | some v => decide (v < a)
  | none => false

/-- JavaScript `1 << n`: a 32-bit shift, wrapping the shift amount mod 32 and
producing a signed 32-bit result. -/
def jsShlOneBy (n : Nat) : Int :=
  toInt32 (2 ^ (n % 32))

/-- `isReady(paranoia)`.  Note that the source guards with the truthiness of
`this._strength` (`this._strength && this._strength >= entropyRequired`), and
that `PARANOIA_LEVELS[p]` is `undefined` (`none`) for an out-of-range index. -/
def isReady (st : PrngState) (paranoia : Option Nat) (now : Int) : Nat :=
  let entropyRequired := PARANOIA_LEVELS[(match paranoia with
    | some p => p
    | none => st.defaultParanoia)]?
  if st.strength ≠ 0 ∧ jsGE st.strength entropyRequired = true then
    if st.poolEntropy.getD 0 0 > BITS_PER_RESEED ∧ now > st.nextReseed then
      Nat.lor REQUIRES_RESEED READY
    else READY
  else if jsGE st.poolStrength entropyRequired = true then
    Nat.lor REQUIRES_RESEED NOT_READY
  else NOT_READY

/-- `getProgress(paranoia)`.  The source selects the level with the
truthiness test `paranoia ? paranoia : this._defaultParanoia`, so a supplied
`0` falls back to the default.  A `none` result models the `NaN` produced by
arithmetic on an `undefined` level. -/
def getProgress (st : PrngState) (paranoia : Option Nat) : Option ℚ :=
  let idx := match paranoia with
    | some p => if p ≠ 0 then p else st.defaultParanoia
    | none => st.defaultParanoia
  match PARANOIA_LEVELS[idx]? with
  | none => none
  | some need =>
    if jsGE st.strength (some need) = true then some 1
    else if jsGT st.poolStrength (some need) = true then some 1
    else some ((st.poolStrength : ℚ) / (need : ℚ))

/-- An element of a JavaScript array passed to `addEntropy`: a number, or a
value of any other type. -/
inductive ArrElem where
  | num (v : Int)
  | nonNum
deriving DecidableEq

/-- The dynamic type of `addEntropy`'s `data` argument, following the
source's `typeof`/`toString` dispatch: a number, a plain array, a
`Uint32Array`, a string (as its character codes), some other object, or a
value of any other type (the `default` branch). -/
inductive EntropyData where
  | word (v : Int)
  | arr (elems : List ArrElem)
  | u32arr (elems : List Int)
  | text (chars : List Int)
  | obj
  | other
deriving DecidableEq

/-- Does a plain array contain a non-number element? -/
def hasNonNum (l : List ArrElem) : Bool :=
  l.any (fun e => match e with | .num _ => false | .nonNum => true)

/-- The numeric values of a plain array (total on arrays with no non-number
element, which is the only case in which the source reads them). -/
def arrNums (l : List ArrElem) : List Int :=
  l.filterMap (fun e => match e with | .num v => some v | .nonNum => none)

/-- Data shapes on which `addEntropy`'s dispatch sets `err = 1`. -/
def unsupportedData : EntropyData → Bool
  | .arr elems => hasNonNum elems
  | .obj => true
  | .other => true
  | _ => false

/-- Feed words into the streaming hash of pool `robin`
(`this._pools[robin].update(ws)`). -/
def poolFeed (st : PrngState) (robin : Nat) (ws : List Int) : PrngState :=
  { st with pools := st.pools.set robin ((st.pools.getD robin []) ++ ws) }

/-- A sequence of `update` calls on pool `robin`. -/
def poolFeedMany (st : PrngState) (robin : Nat) (updates : List (List Int)) : PrngState :=
  updates.foldl (fun s ws => poolFeed s robin ws) st

/-- `this._poolEntropy[robin] += est; this._poolStrength += est`. -/
def creditEntropy (st : PrngState) (robin : Nat) (est : Int) : PrngState :=
  { st with
    poolEntropy := st.poolEntropy.set robin (st.poolEntropy.getD robin 0 + est),
    poolStrength := st.poolStrength + est }

/-- The shared tail of `addEntropy`'s successful branches: feed the update
payloads, bump `_eventId`, and credit the estimated entropy. -/
def applyUpdate (st : PrngState) (robin : Nat) (updates : List (List Int)) (est : Int) : PrngState :=
  creditEntropy { poolFeedMany st robin updates with eventId := st.eventId + 1 } robin est

/-- Result of `addEntropy`: the state after the call and whether the call
threw the `sjcl.exception.bug` error.  In the error case the state still
reflects the mutations made before the throw (source id allocation and the
round-robin advance). -/
structure AddResult where
  state : PrngState
  err : Bool

/-- `addEntropy(data, estimatedEntropy, source)`.  The event dispatch at the
end of the source function only reads state and invokes listeners; it mutates
no generator field and is therefore not part of the state transition. -/
def addEntropy (st : PrngState) (data : EntropyData) (estimatedEntropy : Option Int)
    (src : Option String) (env : Env) : AddResult :=
  let source := resolveSource src
  let t := env.now
  let r := env.rand 0
  let idc :=
    match lookupS st.collectorIds source with
    | some v => (v, st.collectorIds, st.collectorIdNext)
    | none => (st.collectorIdNext, setAssoc st.collectorIds source st.collectorIdNext,
               st.collectorIdNext + 1)
  let robin := (lookupS st.robins source).getD 0
  let st0 := { st with
    collectorIds := idc.2.1,
    collectorIdNext := idc.2.2,
    robins := setAssoc st.robins source ((robin + 1) % st.pools.length) }
  let id : Int := idc.1
  match data with
  | .word v =>
    let est := estimatedEntropy.getD 1
    { state := applyUpdate st0 robin [[id, (st.eventId : Int), 1, est, t, r, 1, toInt32 v]] est,
      err := false }
  | .u32arr elems =>
    let est := estimatedEntropy.getD (entropyEstimate elems)
    { state := applyUpdate st0 robin
        [[id, (st.eventId : Int), 2, est, t, r, (elems.length : Int)] ++ elems] est,
      err := false }
  | .arr elems =>
    if hasNonNum elems then { state := st0, err := true }
    else
      let vals := arrNums elems
      let est := estimatedEntropy.getD (entropyEstimate vals)
      { state := applyUpdate st0 robin
          [[id, (st.eventId : Int), 2, est, t, r, (vals.length : Int)] ++ vals] est,
        err := false }
  | .text chars =>
    let est := estimatedEntropy.getD (chars.length : Int)
    { state := applyUpdate st0 robin
        [[id, (st.eventId : Int), 3, est, t, r, (chars.length : Int)], chars] est,
      err := false }
  | .obj => { state := st0, err := true }
  | .other => { state := st0, err := true }

/-- The 128-bit counter increment: add one to word 0 with 32-bit wrap, and
carry into the next word only on wrap to zero. -/
def incCounter : List Int → List Int
  | [] => []
  | c :: rest =>
    let c2 := toInt32 (c + 1)
    if c2 ≠ 0 then c2 :: rest else c2 :: incCounter rest

/-- `_gen4words()`: increment the counter, then encrypt it.  A `none` first
component models the `TypeError` the source would throw when `_cipher` is
still `undefined`; the counter increment has happened by then. -/
def gen4words (st : PrngState) : Option (List Int) × PrngState :=
  let counter2 := incCounter st.counter
  let st2 := { st with counter := counter2 }
  match st.cipher with
  | none => (none, st2)
  | some k => (some (aesEncrypt k counter2), st2)

/-- `_gate()`: rekey the cipher from its own next two output blocks.  The
first component is false when generation crashed on an undefined cipher. -/
def gate (st : PrngState) : Bool × PrngState :=
  let a := gen4words st
  match a.1 with
  | none => (false, a.2)
  | some g1 =>
    let b := gen4words a.2
    match b.1 with
    | none => (false, b.2)
    | some g2 =>
      (true, { b.2 with key := g1 ++ g2, cipher := some (g1 ++ g2), gates := b.2.gates + 1 })

/-- `_reseed(seedWords)`: fold the seed buffer into the key, rekey the
cipher, and bump the counter. -/
def reseed (st : PrngState) (seedWords : List Int) : PrngState :=
  let key2 := sha256Digest (st.key ++ seedWords)
  { st with key := key2, cipher := some key2, counter := incCounter st.counter }

/-- Output of `_reseedFromPools`' drain loop. -/
structure LoopOut where
  pools : List (List Int)
  poolEntropy : List Int
  data : List Int
  strength : Int
  parts : List Nat

/-- The drain loop of `_reseedFromPools`: finalize pool `i` (which resets the
streaming hash), zero its entropy counter, and — unless `full` — stop after
pool `i` when bit `i` of the pre-increment `_reseedCount` is set.  `parts`
accumulates the processed pool indices (ghost).  The first argument is
recursion fuel; the caller supplies `pools.length`, which bounds the loop, so
the fuel never runs out. -/
def reseedLoop (full : Bool) (rc : Nat) :
    Nat → List (List Int) → List Int → List Int → Int → List Nat → Nat → LoopOut
  | 0, pools, pe, data, strength, parts, _ => ⟨pools, pe, data, strength, parts⟩
  | fuel + 1, pools, pe, data, strength, parts, i =>
    if i < pools.length then
      let pools2 := pools.set i []
      let data2 := data ++ sha256Digest (pools.getD i [])
      let strength2 := strength + pe.getD i 0
      let pe2 := pe.set i 0
      let parts2 := parts ++ [i]
      if full = false ∧ rc &&& 2 ^ (i % 32) ≠ 0 then
        ⟨pools2, pe2, data2, strength2, parts2⟩
      else
        reseedLoop full rc fuel pools2 pe2 data2 strength2 parts2 (i + 1)
    else ⟨pools, pe, data, strength, parts⟩

/-- The participant-index trace of the drain loop, as a function of the flag,
the pre-increment reseed count, fuel, the number of pools, and the start
index. -/
def partsFrom (full : Bool) (rc : Nat) : Nat → Nat → Nat → List Nat
  | 0, _, _ => []
  | fuel + 1, len, i =>
    if i < len then
      if full = false ∧ rc &&& 2 ^ (i % 32) ≠ 0 then [i]
      else i :: partsFrom full rc fuel len (i + 1)
    else []

/-- `_reseedFromPools(full)`. -/
def reseedFromPools (st : PrngState) (full : Bool) (env : Env) : PrngState :=
  let nextReseed := env.now + MILLISECONDS_PER_RESEED
  let seed0 := nextReseed :: (List.range 16).map env.rand
  let o := reseedLoop full st.reseedCount st.pools.length st.pools st.poolEntropy seed0 0 [] 0
  let appended := jsShlOneBy o.pools.length ≤ (st.reseedCount : Int)
  let st2 := { st with
    nextReseed := nextReseed,
    pools := if appended then o.pools ++ [[]] else o.pools,
    poolEntropy := if appended then o.poolEntropy ++ [0] else o.poolEntropy,
    poolStrength := st.poolStrength - o.strength,
    strength := if st.strength < o.strength then o.strength else st.strength,
    reseedCount := st.reseedCount + 1,
    lastParticipants := o.parts }
  reseed st2 o.data

/-- Abbreviation for the result of `_reseedFromPools`' drain loop on a given
state (definitionally the loop call inside `reseedFromPools`). -/
def reseedOut (st : PrngState) (full : Bool) (env : Env) : LoopOut :=
  reseedLoop full st.reseedCount st.pools.length st.pools st.poolEntropy
    ((env.now + MILLISECONDS_PER_RESEED) :: (List.range 16).map env.rand) 0 [] 0

/-- Failure modes of `randomWords`: the `notReady` exception, or the
`TypeError` of encrypting with an undefined cipher. -/
inductive RWErr where
  | notReady
  | typeError
deriving DecidableEq

/-- Did the call return normally? -/
def exceptOk : Except RWErr (List Int) → Bool
  | Except.ok _ => true
  | Except.error _ => false

/-- The generation loop of `randomWords`: `for (i=0; i<nwords; i+=4)`, with a
gate when `(i+1) % MAX_WORDS_PER_BURST === 0`, then one 4-word block.  The
second argument is recursion fuel; the caller supplies `nwords`, which bounds
the number of iterations, so the fuel never runs out. -/
def genLoop (nwords : Nat) : Nat → PrngState → Nat → List Int → Bool × List Int × PrngState
  | 0, st, _, out => (true, out, st)
  | fuel + 1, st, i, out =>
    if i < nwords then
      let gr := if (i + 1) % MAX_WORDS_PER_BURST = 0 then gate st else (true, st)
      if gr.1 = false then (false, out, gr.2)
      else
        let g4 := gen4words gr.2
        match g4.1 with
        | none => (false, out, g4.2)
        | some g => genLoop nwords fuel g4.2 (i + 4) (out ++ g)
    else (true, out, st)

/-- `randomWords(nwords, paranoia)`: throw `notReady` when the oracle returns
`NOT_READY`; otherwise reseed when the `REQUIRES_RESEED` bit is set (a full
reseed when `READY` is not set), run the generation loop, perform the final
gate, and truncate to `nwords` words. -/
def randomWords (st : PrngState) (nwords : Nat) (paranoia : Option Nat) (env : Env) :
    Except RWErr (List Int) × PrngState :=
  let readiness := isReady st paranoia env.now
  if readiness = NOT_READY then (Except.error RWErr.notReady, st)
  else
    let st1 := if Nat.land readiness REQUIRES_RESEED ≠ 0 then
        reseedFromPools st (Nat.land readiness READY == 0) env
      else st
    let r := genLoop nwords nwords st1 0 []
    if r.1 = false then (Except.error RWErr.typeError, r.2.2)
    else
      let g := gate r.2.2
      if g.1 = false then (Except.error RWErr.typeError, g.2)
      else (Except.ok (r.2.1.take nwords), g.2)

/-- `setDefaultParanoia(paranoia)`. -/
def setDefaultParanoia (st : PrngState) (p : Nat) : PrngState :=
  { st with defaultParanoia := p }

/-- `startCollectors()`: attaching the host event handlers is outside the
core state; the generator field affected is the idempotence guard. -/
def startCollectors (st : PrngState) : PrngState :=
  if st.collectorsStarted then st else { st with collectorsStarted := true }

/-- `stopCollectors()`. -/
def stopCollectors (st : PrngState) : PrngState :=
  if st.collectorsStarted then { st with collectorsStarted := false } else st

/-- The two event names of the listener registry. -/
inductive EventName where
  | progress
  | seeded
deriving DecidableEq

/-- The registry for one event name; a callback is identified by a token
(`Nat`), registrations are keyed by the shared `_callbackI` counter. -/
def getCallbacks (st : PrngState) (name : EventName) : List (Nat × Nat) :=
  match name with
  | .progress => st.progressCallbacks
  | .seeded => st.seededCallbacks

/-- Replace the registry of one event name. -/
def setCallbacks (st : PrngState) (name : EventName) (l : List (Nat × Nat)) : PrngState :=
  match name with
  | .progress => { st with progressCallbacks := l }
  | .seeded => { st with seededCallbacks := l }

/-- `addEventListener(name, callback)`. -/
def addEventListener (st : PrngState) (name : EventName) (cb : Nat) : PrngState :=
  { setCallbacks st name (getCallbacks st name ++ [(st.callbackI, cb)]) with
    callbackI := st.callbackI + 1 }

/-- `removeEventListener(name, cb)`: first collect the keys of all
registrations whose callback is identical to `cb`, then delete each collected
key. -/
def removeEventListener (st : PrngState) (name : EventName) (cb : Nat) : PrngState :=
  let cbs := getCallbacks st name
  let jsTemp := (cbs.filter (fun e => e.2 == cb)).map Prod.fst
  setCallbacks st name (jsTemp.foldl (fun acc j => acc.filter (fun e => e.1 != j)) cbs)

/-- The public operations of the generator (claim C8 quantifies over these). -/
inductive Op where
  | addEntropy (data : EntropyData) (est : Option Int) (src : Option String)
  | randomWords (n : Nat) (paranoia : Option Nat)
  | setDefaultParanoia (p : Nat)
  | startCollectors
  | stopCollectors
  | addEventListener (name : EventName) (cb : Nat)
  | removeEventListener (name : EventName) (cb : Nat)

/-- The state reached by one public operation. -/
def applyOp (st : PrngState) (op : Op) (env : Env) : PrngState :=
  match op with
  | .addEntropy d e s => (addEntropy st d e s env).state
  | .randomWords n p => (randomWords st n p env).2
  | .setDefaultParanoia p => setDefaultParanoia st p
  | .startCollectors => startCollectors st
  | .stopCollectors => stopCollectors st
  | .addEventListener name cb => addEventListener st name cb
  | .removeEventListener name cb => removeEventListener st name cb

/-- Structural well-formedness of a generator state: the pool bank and its
entropy counters have equal, positive length; every round-robin index is in
range; and `poolStrength` is the total of the per-pool entropy counters
(spec invariants I1, I2, I6). -/
def WF (st : PrngState) : Prop :=
  st.poolEntropy.length = st.pools.length ∧
  1 ≤ st.pools.length ∧
  (∀ e ∈ st.robins, e.2 < st.pools.length) ∧
  st.poolStrength = st.poolEntropy.sum

instance (st : PrngState) : Decidable (WF st) := by
  unfold WF; infer_instance

/-- The constructor's field initialization (one fresh pool, zero counters). -/
def baseState : PrngState where
  pools := [[]]
  poolEntropy := [0]
  reseedCount := 0
  robins := []
  eventId := 0
  collectorIds := []
  collectorIdNext := 0
  strength := 0
  poolStrength := 0
  nextReseed := 0
  key := [0, 0, 0, 0, 0, 0, 0, 0]
  counter := [0, 0, 0, 0]
  cipher := none
  defaultParanoia := 6
  collectorsStarted := false
  progressCallbacks := []
  seededCallbacks := []
  callbackI := 0
  gates := 0
  lastParticipants := []

/-- A fixed environment for concrete evaluations. -/
def env0 : Env where
  now := 0
  rand := fun _ => 0

/-- Iterated non-full reseeds under `env0`. -/
def iterReseed : Nat → PrngState → PrngState
  | 0, st => st
  | n + 1, st => iterReseed n (reseedFromPools st false env0)

/-- A state whose pool bank holds 48 bits but whose working strength is zero:
the oracle answers `REQUIRES_RESEED | NOT_READY` at paranoia 1. -/
def stC1 : PrngState :=
  { baseState with poolEntropy := [48], poolStrength := 48 }

/-- A ready state (strength 48, cipher keyed) with no pending reseed. -/
def stReady : PrngState :=
  { baseState with strength := 48, cipher := some [0, 0, 0, 0, 0, 0, 0, 0] }

/-- A two-pool state at reseed count 2. -/
def stC3w : PrngState :=
  { baseState with pools := [[], []], poolEntropy := [0, 0], reseedCount := 2 }

/-- A one-pool state at reseed count 1. -/
def stC5 : PrngState :=
  { baseState with reseedCount := 1 }

/-- A two-pool state that has already seen the source tag of the default
source, so that the failing call's round-robin advance is visible. -/
def stC6 : PrngState :=
  { baseState with
    pools := [[], []],
    poolEntropy := [0, 0],
    robins := [("user", 0)],
    collectorIds := [("user", 0)],
    collectorIdNext := 1 }

/-- A cold state with default paranoia 6. -/
def stC7 : PrngState := baseState

/-- A registry with callback 5 registered twice around callback 7. -/
def stC10 : PrngState :=
  { baseState with progressCallbacks := [(0, 5), (1, 7), (2, 5)], callbackI := 3 }

/-! ### Basic helper lemmas -/

theorem listSum_set (l : List Int) (i : Nat) (v : Int) (h : i < l.length) :
    (l.set i v).sum = l.sum - l.getD i 0 + v := by
  induction l generalizing i with
  | nil => simp at h
  | cons a t ih =>
    cases i with
    | zero => simp; ring
    | succ n =>
      simp only [List.set_cons_succ, List.sum_cons, List.getD_cons_succ]
      rw [ih n (by simpa using h)]
      ring

theorem lookupS_mem {m : List (String × Nat)} {k : String} {v : Nat}
    (h : lookupS m k = some v) : (k, v) ∈ m := by
  induction m with
  | nil => simp [lookupS] at h
  | cons e rest ih =>
    rw [lookupS] at h
    split at h
    · next heq =>
      cases e
      simp_all
    · exact List.mem_cons_of_mem _ (ih h)

theorem mem_setAssoc {m : List (String × Nat)} {k : String} {v : Nat} {e : String × Nat}
    (h : e ∈ setAssoc m k v) : e ∈ m ∨ e = (k, v) := by
  induction m with
  | nil =>
    simp [setAssoc] at h
    right
    exact h
  | cons a rest ih =>
    rw [setAssoc] at h
    split at h
    · rcases List.mem_cons.mp h with h1 | h1
      · right; exact h1
      · left; exact List.mem_cons_of_mem _ h1
    · rcases List.mem_cons.mp h with h1 | h1
      · left; simp [h1]
      · rcases ih h1 with h2 | h2
        · left; exact List.mem_cons_of_mem _ h2
        · right; exact h2

theorem toInt32_eq (v : Int) (h0 : 0 ≤ v) (h1 : v < 2147483648) : toInt32 v = v := by
  unfold toInt32
  omega

/-! ### Field-preservation facts for the output stage -/

theorem gen4words_state (st : PrngState) :
    (gen4words st).2 = { st with counter := incCounter st.counter } := by
  unfold gen4words
  cases st.cipher <;> rfl

theorem gate_fields (st : PrngState) :
    (gate st).2.pools = st.pools ∧ (gate st).2.poolEntropy = st.poolEntropy ∧
    (gate st).2.poolStrength = st.poolStrength ∧ (gate st).2.robins = st.robins := by
  unfold gate gen4words
  cases st.cipher <;> simp

theorem gate_of_cipher (st : PrngState) (k : List Int) (h : st.cipher = some k) :
    (gate st).1 = true ∧ (gate st).2.cipher.isSome = true ∧
    (gate st).2.gates = st.gates + 1 := by
  unfold gate gen4words
  simp [h]

theorem gate_of_none (st : PrngState) (h : st.cipher = none) :
    (gate st).1 = false ∧ (gate st).2.gates = st.gates ∧
    (gate st).2.cipher = none := by
  unfold gate gen4words
  simp [h]

theorem gen4words_cipher (st : PrngState) : (gen4words st).2.cipher = st.cipher := by
  unfold gen4words
  cases st.cipher <;> rfl

theorem gen4words_isSome (st : PrngState) (h : st.cipher.isSome = true) :
    (gen4words st).1.isSome = true := by
  unfold gen4words
  cases hc : st.cipher
  · rw [hc] at h; simp at h
  · simp

/-- The pool-bank view of a state: the fields that entropy accounting is
about. -/
def poolView (st : PrngState) : List (List Int) × List Int × Int × List (String × Nat) :=
  (st.pools, st.poolEntropy, st.poolStrength, st.robins)

theorem poolView_gen4 (st : PrngState) : poolView (gen4words st).2 = poolView st := by
  rw [gen4words_state]
  rfl

theorem poolView_gate (st : PrngState) : poolView (gate st).2 = poolView st := by
  obtain ⟨h1, h2, h3, h4⟩ := gate_fields st
  unfold poolView
  rw [h1, h2, h3, h4]

theorem genLoop_stop (n fuel : Nat) (st : PrngState) (i : Nat) (out : List Int)
    (hi : ¬ i < n) : genLoop n fuel st i out = (true, out, st) := by
  cases fuel with
  | zero => rfl
  | succ f =>
    simp only [genLoop]
    rw [if_neg hi]

theorem genLoop_step_noGate (n f : Nat) (st : PrngState) (i : Nat) (out : List Int)
    (hi : i < n) (hg : ¬ (i + 1) % MAX_WORDS_PER_BURST = 0) :
    genLoop n (f + 1) st i out =
      (match (gen4words st).1 with
        | none => (false, out, (gen4words st).2)
        | some g => genLoop n f (gen4words st).2 (i + 4) (out ++ g)) := by
  simp only [genLoop]
  rw [if_pos hi]
  simp only [if_neg hg]
  rfl

theorem genLoop_step_gateFail (n f : Nat) (st : PrngState) (i : Nat) (out : List Int)
    (hi : i < n) (hg : (i + 1) % MAX_WORDS_PER_BURST = 0) (hb : (gate st).1 = false) :
    genLoop n (f + 1) st i out = (false, out, (gate st).2) := by
  simp only [genLoop]
  rw [if_pos hi]
  simp only [if_pos hg, hb]
  rfl

theorem genLoop_step_gateOk (n f : Nat) (st : PrngState) (i : Nat) (out : List Int)
    (hi : i < n) (hg : (i + 1) % MAX_WORDS_PER_BURST = 0) (hb : (gate st).1 = true) :
    genLoop n (f + 1) st i out =
      (match (gen4words (gate st).2).1 with
        | none => (false, out, (gen4words (gate st).2).2)
        | some g => genLoop n f (gen4words (gate st).2).2 (i + 4) (out ++ g)) := by
  simp only [genLoop]
  rw [if_pos hi]
  simp only [if_pos hg, hb]
  rfl

theorem genLoop_poolView : ∀ (fuel n : Nat) (st : PrngState) (i : Nat) (out : List Int),
    poolView (genLoop n fuel st i out).2.2 = poolView st := by
  intro fuel
  induction fuel with
  | zero =>
    intro n st i out
    rfl
  | succ f ih =>
    intro n st i out
    by_cases hi : i < n
    · by_cases hg : (i + 1) % MAX_WORDS_PER_BURST = 0
      · cases hb : (gate st).1 with
        | false =>
          rw [genLoop_step_gateFail n f st i out hi hg hb]
          exact poolView_gate st
        | true =>
          rw [genLoop_step_gateOk n f st i out hi hg hb]
          cases h4 : (gen4words (gate st).2).1 with
          | none =>
            simp only [h4]
            rw [poolView_gen4, poolView_gate]
          | some g =>
            simp only [h4]
            rw [ih n _ (i + 4) _, poolView_gen4, poolView_gate]
      · rw [genLoop_step_noGate n f st i out hi hg]
        cases h4 : (gen4words st).1 with
        | none =>
          simp only [h4]
          exact poolView_gen4 st
        | some g =>
          simp only [h4]
          rw [ih n _ (i + 4) _, poolView_gen4]
    · rw [genLoop_stop n (f + 1) st i out hi]

theorem gen4words_gates (st : PrngState) : (gen4words st).2.gates = st.gates := by
  rw [gen4words_state]

theorem genLoop_gates : ∀ (fuel n : Nat) (st : PrngState) (i : Nat) (out : List Int),
    i % 4 = 0 → (genLoop n fuel st i out).2.2.gates = st.gates := by
  intro fuel
  induction fuel with
  | zero =>
    intro n st i out hi4
    rfl
  | succ f ih =>
    intro n st i out hi4
    by_cases hi : i < n
    · have hg : ¬ (i + 1) % MAX_WORDS_PER_BURST = 0 := by
        unfold MAX_WORDS_PER_BURST
        omega
      rw [genLoop_step_noGate n f st i out hi hg]
      cases h4 : (gen4words st).1 with
      | none =>
        simp only [h4]
        exact gen4words_gates st
      | some g =>
        simp only [h4]
        rw [ih n _ (i + 4) _ (by omega), gen4words_gates]
    · rw [genLoop_stop n (f + 1) st i out hi]

theorem genLoop_ok : ∀ (fuel n : Nat) (st : PrngState) (i : Nat) (out : List Int),
    st.cipher.isSome = true →
    (genLoop n fuel st i out).1 = true ∧
    (genLoop n fuel st i out).2.2.cipher.isSome = true := by
  intro fuel
  induction fuel with
  | zero =>
    intro n st i out hc
    exact ⟨rfl, hc⟩
  | succ f ih =>
    intro n st i out hc
    by_cases hi : i < n
    · by_cases hg : (i + 1) % MAX_WORDS_PER_BURST = 0
      · obtain ⟨k, hk⟩ := Option.isSome_iff_exists.mp hc
        obtain ⟨hg1, hg2, -⟩ := gate_of_cipher st k hk
        rw [genLoop_step_gateOk n f st i out hi hg hg1]
        have h4s : (gen4words (gate st).2).1.isSome = true := gen4words_isSome _ hg2
        obtain ⟨g, hgv⟩ := Option.isSome_iff_exists.mp h4s
        simp only [hgv]
        have hc2 : (gen4words (gate st).2).2.cipher.isSome = true := by
          rw [gen4words_cipher]
          exact hg2
        exact ih n _ (i + 4) _ hc2
      · rw [genLoop_step_noGate n f st i out hi hg]
        have h4s : (gen4words st).1.isSome = true := gen4words_isSome _ hc
        obtain ⟨g, hgv⟩ := Option.isSome_iff_exists.mp h4s
        simp only [hgv]
        have hc2 : (gen4words st).2.cipher.isSome = true := by
          rw [gen4words_cipher]
          exact hc
        exact ih n _ (i + 4) _ hc2
    · rw [genLoop_stop n (f + 1) st i out hi]
      exact ⟨rfl, hc⟩

/-! ### Drain-loop lemmas -/

theorem reseedLoop_lengths : ∀ (fuel : Nat) (full : Bool) (rc : Nat) (pools : List (List Int))
    (pe : List Int) (data : List Int) (s : Int) (parts : List Nat) (i : Nat),
    (reseedLoop full rc fuel pools pe data s parts i).pools.length = pools.length ∧
    (reseedLoop full rc fuel pools pe data s parts i).poolEntropy.length = pe.length := by
  intro fuel
  induction fuel with
  | zero =>
    intro full rc pools pe data s parts i
    exact ⟨rfl, rfl⟩
  | succ f ih =>
    intro full rc pools pe data s parts i
    simp only [reseedLoop]
    by_cases hi : i < pools.length
    · rw [if_pos hi]
      by_cases hbr : full = false ∧ rc &&& 2 ^ (i % 32) ≠ 0
      · rw [if_pos hbr]
        simp
      · rw [if_neg hbr]
        obtain ⟨ha, hb⟩ := ih full rc (pools.set i []) (pe.set i 0) _ _ _ (i + 1)
        rw [ha, hb]
        simp
    · rw [if_neg hi]
      exact ⟨rfl, rfl⟩

theorem reseedLoop_sum : ∀ (fuel : Nat) (full : Bool) (rc : Nat) (pools : List (List Int))
    (pe : List Int) (data : List Int) (s : Int) (parts : List Nat) (i : Nat),
    pe.length = pools.length →
    (reseedLoop full rc fuel pools pe data s parts i).strength +
      (reseedLoop full rc fuel pools pe data s parts i).poolEntropy.sum = s + pe.sum := by
  intro fuel
  induction fuel with
  | zero =>
    intro full rc pools pe data s parts i hlen
    rfl
  | succ f ih =>
    intro full rc pools pe data s parts i hlen
    simp only [reseedLoop]
    by_cases hi : i < pools.length
    · rw [if_pos hi]
      have hipe : i < pe.length := by omega
      have hset := listSum_set pe i 0 hipe
      by_cases hbr : full = false ∧ rc &&& 2 ^ (i % 32) ≠ 0
      · rw [if_pos hbr]
        simp only []
        rw [hset]
        ring
      · rw [if_neg hbr]
        rw [ih full rc (pools.set i []) (pe.set i 0) _ _ _ (i + 1)
          (by simp only [List.length_set]; omega)]
        rw [hset]
        ring
    · rw [if_neg hi]

theorem reseedLoop_parts : ∀ (fuel : Nat) (full : Bool) (rc : Nat) (pools : List (List Int))
    (pe : List Int) (data : List Int) (s : Int) (parts : List Nat) (i : Nat),
    (reseedLoop full rc fuel pools pe data s parts i).parts =
      parts ++ partsFrom full rc fuel pools.length i := by
  intro fuel
  induction fuel with
  | zero =>
    intro full rc pools pe data s parts i
    simp [reseedLoop, partsFrom]
  | succ f ih =>
    intro full rc pools pe data s parts i
    simp only [reseedLoop, partsFrom]
    by_cases hi : i < pools.length
    · rw [if_pos hi, if_pos hi]
      by_cases hbr : full = false ∧ rc &&& 2 ^ (i % 32) ≠ 0
      · rw [if_pos hbr, if_pos hbr]
      · rw [if_neg hbr, if_neg hbr]
        rw [ih full rc (pools.set i []) (pe.set i 0) _ _ _ (i + 1)]
        simp
    · rw [if_neg hi, if_neg hi]
      simp

theorem mem_partsFrom : ∀ (fuel : Nat) (full : Bool) (rc : Nat) (len i j : Nat),
    len - i ≤ fuel →
    (j ∈ partsFrom full rc fuel len i ↔
      i ≤ j ∧ j < len ∧ (full = true ∨ ∀ k, i ≤ k → k < j → rc &&& 2 ^ (k % 32) = 0)) := by
  intro fuel
  induction fuel with
  | zero =>
    intro full rc len i j hle
    simp only [partsFrom, List.not_mem_nil, false_iff]
    rintro ⟨h1, h2, -⟩
    omega
  | succ f ih =>
    intro full rc len i j hle
    simp only [partsFrom]
    by_cases hi : i < len
    · rw [if_pos hi]
      by_cases hbr : full = false ∧ rc &&& 2 ^ (i % 32) ≠ 0
      · rw [if_pos hbr]
        simp only [List.mem_singleton]
        constructor
        · rintro rfl
          refine ⟨le_refl _, hi, Or.inr (fun k hk1 hk2 => absurd hk2 (by omega))⟩
        · rintro ⟨hij, hjlen, hcond⟩
          rcases hbr with ⟨hfull, hbit⟩
          rcases hcond with hfull2 | hall
          · rw [hfull] at hfull2
            exact absurd hfull2 (by simp)
          · by_contra hne
            have hik : i < j := by omega
            exact hbit (hall i (le_refl _) hik)
      · rw [if_neg hbr]
        rw [List.mem_cons]
        rw [ih full rc len (i + 1) j (by omega)]
        have hbr2 : full = true ∨ rc &&& 2 ^ (i % 32) = 0 := by
          cases full
          · right
            by_contra hb
            exact hbr ⟨rfl, hb⟩
          · left
            rfl
        constructor
        · rintro (rfl | ⟨h1, h2, h3⟩)
          · refine ⟨le_refl _, hi, ?_⟩
            rcases hbr2 with hf | hb
            · exact Or.inl hf
            · exact Or.inr (fun k hk1 hk2 => absurd hk2 (by omega))
          · refine ⟨by omega, h2, ?_⟩
            rcases h3 with hf | hall
            · exact Or.inl hf
            · rcases hbr2 with hf | hb
              · exact Or.inl hf
              · right
                intro k hk1 hk2
                by_cases hk : k = i
                · rw [hk]
                  exact hb
                · exact hall k (by omega) hk2
        · rintro ⟨h1, h2, h3⟩
          by_cases hji : j = i
          · exact Or.inl hji
          · right
            refine ⟨by omega, h2, ?_⟩
            rcases h3 with hf | hall
            · exact Or.inl hf
            · exact Or.inr (fun k hk1 hk2 => hall k (by omega) hk2)
    · rw [if_neg hi]
      simp only [List.not_mem_nil, false_iff]
      rintro ⟨h1, h2, -⟩
      omega

/-! ### Reseed-level projection facts and invariant preservation -/

theorem rfp_pools (st : PrngState) (full : Bool) (env : Env) :
    (reseedFromPools st full env).pools =
      if jsShlOneBy (reseedOut st full env).pools.length ≤ (st.reseedCount : Int)
      then (reseedOut st full env).pools ++ [[]] else (reseedOut st full env).pools := rfl

theorem rfp_poolEntropy (st : PrngState) (full : Bool) (env : Env) :
    (reseedFromPools st full env).poolEntropy =
      if jsShlOneBy (reseedOut st full env).pools.length ≤ (st.reseedCount : Int)
      then (reseedOut st full env).poolEntropy ++ [0] else (reseedOut st full env).poolEntropy := rfl

theorem rfp_poolStrength (st : PrngState) (full : Bool) (env : Env) :
    (reseedFromPools st full env).poolStrength =
      st.poolStrength - (reseedOut st full env).strength := rfl

theorem rfp_robins (st : PrngState) (full : Bool) (env : Env) :
    (reseedFromPools st full env).robins = st.robins := rfl

theorem rfp_gates (st : PrngState) (full : Bool) (env : Env) :
    (reseedFromPools st full env).gates = st.gates := rfl

theorem rfp_parts (st : PrngState) (full : Bool) (env : Env) :
    (reseedFromPools st full env).lastParticipants = (reseedOut st full env).parts := rfl

theorem rfp_cipherSome (st : PrngState) (full : Bool) (env : Env) :
    (reseedFromPools st full env).cipher.isSome = true := rfl

theorem reseedOut_lengths (st : PrngState) (full : Bool) (env : Env) :
    (reseedOut st full env).pools.length = st.pools.length ∧
    (reseedOut st full env).poolEntropy.length = st.poolEntropy.length := by
  unfold reseedOut
  exact reseedLoop_lengths st.pools.length full st.reseedCount st.pools st.poolEntropy _ 0 [] 0

theorem reseedOut_sum (st : PrngState) (full : Bool) (env : Env)
    (hlen : st.poolEntropy.length = st.pools.length) :
    (reseedOut st full env).strength + (reseedOut st full env).poolEntropy.sum =
      st.poolEntropy.sum := by
  unfold reseedOut
  have h := reseedLoop_sum st.pools.length full st.reseedCount st.pools st.poolEntropy
    ((env.now + MILLISECONDS_PER_RESEED) :: (List.range 16).map env.rand) 0 [] 0 hlen
  simpa using h

theorem reseedOut_parts (st : PrngState) (full : Bool) (env : Env) :
    (reseedOut st full env).parts =
      partsFrom full st.reseedCount st.pools.length st.pools.length 0 := by
  unfold reseedOut
  have h := reseedLoop_parts st.pools.length full st.reseedCount st.pools st.poolEntropy
    ((env.now + MILLISECONDS_PER_RESEED) :: (List.range 16).map env.rand) 0 [] 0
  simpa using h

theorem reseedFromPools_WF (st : PrngState) (full : Bool) (env : Env) (h : WF st) :
    WF (reseedFromPools st full env) := by
  obtain ⟨hlen, hpos, hrob, hsum⟩ := h
  obtain ⟨hl1, hl2⟩ := reseedOut_lengths st full env
  have hs := reseedOut_sum st full env hlen
  refine ⟨?_, ?_, ?_, ?_⟩
  · rw [rfp_poolEntropy, rfp_pools]
    by_cases hc : jsShlOneBy (reseedOut st full env).pools.length ≤ (st.reseedCount : Int)
    · rw [if_pos hc, if_pos hc]
      simp only [List.length_append, List.length_singleton]
      omega
    · rw [if_neg hc, if_neg hc]
      omega
  · rw [rfp_pools]
    by_cases hc : jsShlOneBy (reseedOut st full env).pools.length ≤ (st.reseedCount : Int)
    · rw [if_pos hc]
      simp only [List.length_append, List.length_singleton]
      omega
    · rw [if_neg hc]
      omega
  · rw [rfp_robins, rfp_pools]
    intro e he
    have hb := hrob e he
    by_cases hc : jsShlOneBy (reseedOut st full env).pools.length ≤ (st.reseedCount : Int)
    · rw [if_pos hc]
      simp only [List.length_append, List.length_singleton]
      omega
    · rw [if_neg hc]
      omega
  · rw [rfp_poolStrength, rfp_poolEntropy]
    by_cases hc : jsShlOneBy (reseedOut st full env).pools.length ≤ (st.reseedCount : Int)
    · rw [if_pos hc, List.sum_append]
      simp only [List.sum_cons, List.sum_nil]
      omega
    · rw [if_neg hc]
      omega

/-! ### Entropy-router invariant preservation -/

theorem robin_lt (st : PrngState) (source : String) (h : WF st) :
    (lookupS st.robins source).getD 0 < st.pools.length := by
  obtain ⟨-, hpos, hrob, -⟩ := h
  cases hlr : lookupS st.robins source with
  | none =>
    simp only [Option.getD_none]
    omega
  | some v =>
    simp only [Option.getD_some]
    exact hrob _ (lookupS_mem hlr)

theorem routeWF (st : PrngState) (source : String) (cids : List (String × Nat)) (cnext : Nat)
    (h : WF st) :
    WF { st with
      collectorIds := cids,
      collectorIdNext := cnext,
      robins := setAssoc st.robins source
        (((lookupS st.robins source).getD 0 + 1) % st.pools.length) } := by
  obtain ⟨hlen, hpos, hrob, hsum⟩ := h
  refine ⟨hlen, hpos, ?_, hsum⟩
  intro e he
  rcases mem_setAssoc he with hm | hm
  · exact hrob e hm
  · rw [hm]
    exact Nat.mod_lt _ (by omega)

theorem poolFeedMany_view (robin : Nat) :
    ∀ (ups : List (List Int)) (s : PrngState),
    (poolFeedMany s robin ups).pools.length = s.pools.length ∧
    (poolFeedMany s robin ups).poolEntropy = s.poolEntropy ∧
    (poolFeedMany s robin ups).poolStrength = s.poolStrength ∧
    (poolFeedMany s robin ups).robins = s.robins := by
  intro ups
  induction ups with
  | nil => intro s; exact ⟨rfl, rfl, rfl, rfl⟩
  | cons u rest ih =>
    intro s
    obtain ⟨a, b, c, d⟩ := ih (poolFeed s robin u)
    refine ⟨?_, ?_, ?_, ?_⟩
    · rw [show poolFeedMany s robin (u :: rest) = poolFeedMany (poolFeed s robin u) robin rest
        from rfl, a]
      simp [poolFeed]
    · exact b
    · exact c
    · exact d

theorem applyUpdate_WF (st : PrngState) (robin : Nat) (updates : List (List Int)) (est : Int)
    (h : WF st) (hr : robin < st.pools.length) : WF (applyUpdate st robin updates est) := by
  obtain ⟨hlen, hpos, hrob, hsum⟩ := h
  obtain ⟨a, b, c, d⟩ := poolFeedMany_view robin updates st
  unfold applyUpdate creditEntropy
  dsimp only
  refine ⟨?_, ?_, ?_, ?_⟩
  · simp only [List.length_set, b, a, hlen]
  · simp only [a]
    omega
  · intro e he
    simp only [d] at he
    simp only [a]
    exact hrob e he
  · rw [b, c, listSum_set st.poolEntropy robin _ (by omega)]
    dsimp only
    omega

theorem addEntropy_WF (st : PrngState) (d : EntropyData) (e : Option Int) (s : Option String)
    (env : Env) (h : WF st) : WF (addEntropy st d e s env).state := by
  have hr : (lookupS st.robins (resolveSource s)).getD 0 < st.pools.length :=
    robin_lt st (resolveSource s) h
  cases d with
  | word v =>
    cases hid : lookupS st.collectorIds (resolveSource s) with
    | none =>
      simp only [addEntropy, hid]
      exact applyUpdate_WF _ _ _ _ (routeWF st _ _ _ h) hr
    | some i =>
      simp only [addEntropy, hid]
      exact applyUpdate_WF _ _ _ _ (routeWF st _ _ _ h) hr
  | arr elems =>
    cases hid : lookupS st.collectorIds (resolveSource s) with
    | none =>
      simp only [addEntropy, hid]
      by_cases hnn : hasNonNum elems
      · simp only [hnn, if_true]
        exact routeWF st _ _ _ h
      · simp only [hnn, if_false]
        exact applyUpdate_WF _ _ _ _ (routeWF st _ _ _ h) hr
    | some i =>
      simp only [addEntropy, hid]
      by_cases hnn : hasNonNum elems
      · simp only [hnn, if_true]
        exact routeWF st _ _ _ h
      · simp only [hnn, if_false]
        exact applyUpdate_WF _ _ _ _ (routeWF st _ _ _ h) hr
  | u32arr elems =>
    cases hid : lookupS st.collectorIds (resolveSource s) with
    | none =>
      simp only [addEntropy, hid]
      exact applyUpdate_WF _ _ _ _ (routeWF st _ _ _ h) hr
    | some i =>
      simp only [addEntropy, hid]
      exact applyUpdate_WF _ _ _ _ (routeWF st _ _ _ h) hr
  | text chars =>
    cases hid : lookupS st.collectorIds (resolveSource s) with
    | none =>
      simp only [addEntropy, hid]
      exact applyUpdate_WF _ _ _ _ (routeWF st _ _ _ h) hr
    | some i =>
      simp only [addEntropy, hid]
      exact applyUpdate_WF _ _ _ _ (routeWF st _ _ _ h) hr
  | obj =>
    cases hid : lookupS st.collectorIds (resolveSource s) with
    | none =>
      simp only [addEntropy, hid]
      exact routeWF st _ _ _ h
    | some i =>
      simp only [addEntropy, hid]
      exact routeWF st _ _ _ h
  | other =>
    cases hid : lookupS st.collectorIds (resolveSource s) with
    | none =>
      simp only [addEntropy, hid]
      exact routeWF st _ _ _ h
    | some i =>
      simp only [addEntropy, hid]
      exact routeWF st _ _ _ h

theorem WF_of_poolView {a b : PrngState} (h : poolView a = poolView b) (hw : WF b) : WF a := by
  unfold poolView at h
  have h1 : a.pools = b.pools := congrArg (fun x => x.1) h
  have h2 : a.poolEntropy = b.poolEntropy := congrArg (fun x => x.2.1) h
  have h3 : a.poolStrength = b.poolStrength := congrArg (fun x => x.2.2.1) h
  have h4 : a.robins = b.robins := congrArg (fun x => x.2.2.2) h
  unfold WF
  rw [h1, h2, h3, h4]
  exact hw

theorem randomWords_WF (st : PrngState) (n : Nat) (p : Option Nat) (env : Env) (h : WF st) :
    WF (randomWords st n p env).2 := by
  unfold randomWords
  by_cases hr : isReady st p env.now = NOT_READY
  · simp only [hr, if_pos rfl]
    exact h
  · rw [if_neg hr]
    have h1 : WF (if Nat.land (isReady st p env.now) REQUIRES_RESEED ≠ 0 then
        reseedFromPools st (Nat.land (isReady st p env.now) READY == 0) env else st) := by
      split
      · exact reseedFromPools_WF st _ env h
      · exact h
    generalize (if Nat.land (isReady st p env.now) REQUIRES_RESEED ≠ 0 then
        reseedFromPools st (Nat.land (isReady st p env.now) READY == 0) env else st) = st1 at h1
    have hpv := genLoop_poolView n n st1 0 []
    have h2 : WF (genLoop n n st1 0 []).2.2 := WF_of_poolView hpv h1
    dsimp only
    split
    · exact h2
    · split
      · exact WF_of_poolView (poolView_gate _) h2
      · exact WF_of_poolView (poolView_gate _) h2

/-! ### Listener-registry lemmas -/

theorem getCallbacks_setCallbacks (st : PrngState) (name : EventName) (l : List (Nat × Nat)) :
    getCallbacks (setCallbacks st name l) name = l := by
  cases name <;> rfl

theorem foldl_delete (J : List Nat) (l : List (Nat × Nat)) :
    J.foldl (fun acc j => acc.filter (fun e => e.1 != j)) l =
      l.filter (fun e => !(J.contains e.1)) := by
  induction J generalizing l with
  | nil => simp
  | cons j rest ih =>
    rw [List.foldl_cons, ih, List.filter_filter]
    apply List.filter_congr
    intro e he
    simp [List.contains_cons, not_or]
    by_cases hej : e.1 = j <;> simp [hej]

theorem keyInj {l : List (Nat × Nat)} (hnd : (l.map Prod.fst).Nodup)
    {a b : Nat × Nat} (ha : a ∈ l) (hb : b ∈ l) (hfst : a.1 = b.1) : a = b := by
  induction l with
  | nil => cases ha
  | cons x rest ih =>
    rw [List.map_cons, List.nodup_cons] at hnd
    rcases List.mem_cons.mp ha with ha1 | ha1 <;> rcases List.mem_cons.mp hb with hb1 | hb1
    · rw [ha1, hb1]
    · exfalso
      apply hnd.1
      rw [← ha1, hfst]
      exact List.mem_map_of_mem Prod.fst hb1
    · exfalso
      apply hnd.1
      rw [← hb1, ← hfst]
      exact List.mem_map_of_mem Prod.fst ha1
    · exact ih hnd.2 ha1 hb1

theorem removeEventListener_filter (st : PrngState) (name : EventName) (cb : Nat)
    (hnd : ((getCallbacks st name).map Prod.fst).Nodup) :
    getCallbacks (removeEventListener st name cb) name =
      (getCallbacks st name).filter (fun e => e.2 != cb) := by
  unfold removeEventListener
  rw [getCallbacks_setCallbacks, foldl_delete]
  apply List.filter_congr
  intro e he
  by_cases hmem :
      e.1 ∈ ((getCallbacks st name).filter (fun x => x.2 == cb)).map Prod.fst
  · obtain ⟨a, ha, hfst⟩ := List.mem_map.mp hmem
    obtain ⟨hacbs, hacb⟩ := List.mem_filter.mp ha
    have hae : a = e := keyInj hnd hacbs he hfst
    rw [hae] at hacb
    have hcontains :
        (((getCallbacks st name).filter (fun x => x.2 == cb)).map Prod.fst).contains e.1
          = true := List.elem_eq_true_of_mem hmem
    rw [hcontains]
    simp only [Bool.not_true]
    cases hc : e.2 == cb
    · rw [hc] at hacb
      cases hacb
    · simp [bne, hc]
  · have hcontains :
        (((getCallbacks st name).filter (fun x => x.2 == cb)).map Prod.fst).contains e.1
          = false := by
      cases hcon : (((getCallbacks st name).filter (fun x => x.2 == cb)).map Prod.fst).contains e.1
      · rfl
      · exact absurd (List.mem_of_elem_eq_true hcon) hmem
    rw [hcontains]
    simp only [Bool.not_false]
    cases hc : e.2 == cb
    · simp [bne, hc]
    · exfalso
      apply hmem
      apply List.mem_map_of_mem Prod.fst
      exact List.mem_filter.mpr ⟨he, hc⟩

theorem removeEventListener_other (st : PrngState) (name : EventName) (cb : Nat)
    (other : EventName) (hne : other ≠ name) :
    getCallbacks (removeEventListener st name cb) other = getCallbacks st other := by
  cases name <;> cases other
  · exact absurd rfl hne
  · rfl
  · rfl
  · exact absurd rfl hne

/-! ### Output-stage control-flow lemmas -/

theorem randomWords_notReady (st : PrngState) (n : Nat) (p : Option Nat) (env : Env)
    (h : isReady st p env.now = NOT_READY) :
    randomWords st n p env = (Except.error RWErr.notReady, st) := by
  unfold randomWords
  rw [if_pos h]

theorem randomWords_shape (st : PrngState) (n : Nat) (p : Option Nat) (env : Env)
    (h : ¬ isReady st p env.now = NOT_READY) :
    randomWords st n p env =
      (let st1 := if Nat.land (isReady st p env.now) REQUIRES_RESEED ≠ 0 then
          reseedFromPools st (Nat.land (isReady st p env.now) READY == 0) env else st
       let r := genLoop n n st1 0 []
       if r.1 = false then (Except.error RWErr.typeError, r.2.2)
       else
         let g := gate r.2.2
         if g.1 = false then (Except.error RWErr.typeError, g.2)
         else (Except.ok (r.2.1.take n), g.2)) := by
  unfold randomWords
  rw [if_neg h]

theorem gate_gates_of_true (st : PrngState) (h : (gate st).1 = true) :
    (gate st).2.gates = st.gates + 1 := by
  cases hc : st.cipher with
  | none =>
    rw [(gate_of_none st hc).1] at h
    cases h
  | some k => exact (gate_of_cipher st k hc).2.2

theorem bool_ne_false {b : Bool} (h : ¬ b = false) : b = true := by
  cases b
  · exact absurd rfl h
  · rfl

/-! ### Claim theorems -/

/-- Claim C1 (corrected): `randomWords` fails with `NotReady` exactly when the
oracle returns plain `NOT_READY` (0); when the oracle returns
`REQUIRES_RESEED | NOT_READY` (2) the call does not fail — it performs a full
reseed and proceeds to produce output. -/
theorem randomWords_notReady_iff (st : PrngState) (n : Nat) (p : Option Nat) (env : Env) :
    ((randomWords st n p env).1 = Except.error RWErr.notReady ↔
      isReady st p env.now = NOT_READY) ∧
    (isReady st p env.now = Nat.lor REQUIRES_RESEED NOT_READY →
      exceptOk (randomWords st n p env).1 = true) := by
  constructor
  · constructor
    · intro herr
      by_contra h0
      rw [randomWords_shape st n p env h0] at herr
      dsimp only at herr
      generalize (if Nat.land (isReady st p env.now) REQUIRES_RESEED ≠ 0 then
          reseedFromPools st (Nat.land (isReady st p env.now) READY == 0) env else st) = st1
        at herr
      by_cases hr1 : (genLoop n n st1 0 []).1 = false
      · rw [if_pos hr1] at herr
        simp at herr
      · rw [if_neg hr1] at herr
        by_cases hb : (gate (genLoop n n st1 0 []).2.2).1 = false
        · rw [if_pos hb] at herr
          simp at herr
        · rw [if_neg hb] at herr
          simp at herr
    · intro h0
      rw [randomWords_notReady st n p env h0]
  · intro h2
    have h0 : ¬ isReady st p env.now = NOT_READY := by
      rw [h2]
      decide
    rw [randomWords_shape st n p env h0]
    dsimp only
    rw [h2]
    rw [if_pos (by decide : Nat.land (Nat.lor REQUIRES_RESEED NOT_READY) REQUIRES_RESEED ≠ 0)]
    have hcip : (reseedFromPools st
        (Nat.land (Nat.lor REQUIRES_RESEED NOT_READY) READY == 0) env).cipher.isSome = true :=
      rfp_cipherSome st _ env
    obtain ⟨hok1, hcip2⟩ := genLoop_ok n n _ 0 [] hcip
    rw [if_neg (by simp [hok1])]
    obtain ⟨k, hk⟩ := Option.isSome_iff_exists.mp hcip2
    obtain ⟨hg1, -, -⟩ := gate_of_cipher _ k hk
    rw [if_neg (by simp [hg1])]
    rfl

/-- Claim C1 counterexample: at a concrete state where the oracle returns
`REQUIRES_RESEED | NOT_READY` at paranoia 1, `randomWords(4)` does not fail
with `NotReady`; it returns 4 output words. -/
theorem randomWords_notReady_cex :
    isReady stC1 (some 1) env0.now = Nat.lor REQUIRES_RESEED NOT_READY ∧
    exceptOk (randomWords stC1 4 (some 1) env0).1 = true ∧
    ((randomWords stC1 4 (some 1) env0).1.toOption.getD []).length = 4 :=
  ⟨by decide, by decide, by decide⟩

/-- Claim C1 witness: the corrected theorem applied at the concrete state. -/
theorem randomWords_notReady_iff_witness :
    isReady stC1 (some 1) env0.now = Nat.lor REQUIRES_RESEED NOT_READY ∧
    exceptOk (randomWords stC1 4 (some 1) env0).1 = true :=
  ⟨by decide, (randomWords_notReady_iff stC1 4 (some 1) env0).2 (by decide)⟩

/-- Claim C2 (code bug): a successful `randomWords` call performs exactly one
gate, the final one, regardless of `nwords`; the intra-loop guard
`(i+1) % MAX_WORDS_PER_BURST == 0` is tested only at loop indices `i` that
are multiples of 4, for which `i+1` is odd, so it never fires and no
intra-loop gate ever happens — contrary to the burst discipline. -/
theorem randomWords_single_gate (st : PrngState) (n : Nat) (p : Option Nat) (env : Env)
    (hok : exceptOk (randomWords st n p env).1 = true) :
    (randomWords st n p env).2.gates = st.gates + 1 := by
  by_cases h0 : isReady st p env.now = NOT_READY
  · rw [randomWords_notReady st n p env h0] at hok
    cases hok
  · rw [randomWords_shape st n p env h0] at hok ⊢
    dsimp only at hok ⊢
    have hg1 : (if Nat.land (isReady st p env.now) REQUIRES_RESEED ≠ 0 then
        reseedFromPools st (Nat.land (isReady st p env.now) READY == 0) env else st).gates
        = st.gates := by
      split
      · exact rfp_gates st _ env
      · rfl
    generalize hst1 : (if Nat.land (isReady st p env.now) REQUIRES_RESEED ≠ 0 then
        reseedFromPools st (Nat.land (isReady st p env.now) READY == 0) env else st) = st1
      at hg1 hok ⊢
    have hgl := genLoop_gates n n st1 0 [] (by omega)
    by_cases hr1 : (genLoop n n st1 0 []).1 = false
    · rw [if_pos hr1] at hok
      cases hok
    · rw [if_neg hr1] at hok ⊢
      by_cases hb : (gate (genLoop n n st1 0 []).2.2).1 = false
      · rw [if_pos hb] at hok
        cases hok
      · rw [if_neg hb]
        dsimp only
        rw [gate_gates_of_true _ (bool_ne_false hb), hgl, hg1]

/-- Claim C2 witness: a successful concrete call gates exactly once. -/
theorem randomWords_single_gate_witness :
    exceptOk (randomWords stReady 4 (some 1) env0).1 = true ∧
    (randomWords stReady 4 (some 1) env0).2.gates = stReady.gates + 1 :=
  ⟨by decide, randomWords_single_gate stReady 4 (some 1) env0 (by decide)⟩

/-- Claim C3 (corrected): in a non-full reseed, pool `i` is drained iff
`i` is in range and every bit of the pre-increment `reseedCount` below `i`
is clear (the loop breaks after the first pool whose bit is set); with
`full = true` every pool is drained.  Participation is not governed by bit
`i` itself being set. -/
theorem reseed_participation (st : PrngState) (full : Bool) (env : Env) (i : Nat)
    (hlen : st.pools.length ≤ 32) :
    (i ∈ (reseedFromPools st full env).lastParticipants ↔
      i < st.pools.length ∧
        (full = true ∨ ∀ j, j < i → st.reseedCount &&& 2 ^ j = 0)) := by
  rw [rfp_parts, reseedOut_parts]
  rw [mem_partsFrom st.pools.length full st.reseedCount st.pools.length 0 i (by omega)]
  constructor
  · rintro ⟨-, hi, hcond⟩
    refine ⟨hi, ?_⟩
    rcases hcond with hf | hall
    · exact Or.inl hf
    · right
      intro j hj
      have hjm : j % 32 = j := Nat.mod_eq_of_lt (by omega)
      have hh := hall j (by omega) hj
      rwa [hjm] at hh
  · rintro ⟨hi, hcond⟩
    refine ⟨by omega, hi, ?_⟩
    rcases hcond with hf | hall
    · exact Or.inl hf
    · right
      intro k hk0 hki
      rw [Nat.mod_eq_of_lt (show k < 32 by omega)]
      exact hall k hki

/-- Claim C3 counterexample: on the very first reseed the pre-increment
`reseedCount` is 0, so bit 0 is clear, yet pool 0 is drained. -/
theorem reseed_participation_cex :
    0 ∈ (reseedFromPools baseState false env0).lastParticipants ∧
    baseState.reseedCount &&& 2 ^ 0 = 0 :=
  ⟨by decide, by decide⟩

/-- Claim C3 witness: at `reseedCount = 2` (bit 0 clear) pool 1 participates. -/
theorem reseed_participation_witness :
    stC3w.pools.length ≤ 32 ∧
    1 ∈ (reseedFromPools stC3w false env0).lastParticipants :=
  ⟨by decide, (reseed_participation stC3w false env0 1 (by decide)).mpr (by decide)⟩

/-- Claim C4 (corrected): `isReady` returns a READY result iff
`workingStrength` is nonzero AND at least `need`; with `workingStrength = 0`
(even when `need = 0`, where the claim asserted READY) the truthiness guard
`this._strength &&` sends the oracle to the NOT_READY side, returning
`REQUIRES_RESEED | NOT_READY` when `poolStrength ≥ need` and `NOT_READY`
otherwise. -/
theorem isReady_characterization (st : PrngState) (p : Nat) (now : Int) (hp : p ≤ 10) :
    isReady st (some p) now =
      (if st.strength ≠ 0 ∧ PARANOIA_LEVELS.getD p 0 ≤ st.strength then
        (if BITS_PER_RESEED < st.poolEntropy.getD 0 0 ∧ st.nextReseed < now
          then Nat.lor REQUIRES_RESEED READY else READY)
      else if PARANOIA_LEVELS.getD p 0 ≤ st.poolStrength then
        Nat.lor REQUIRES_RESEED NOT_READY
      else NOT_READY) := by
  unfold isReady jsGE
  interval_cases p <;> simp [PARANOIA_LEVELS]

/-- Claim C4 counterexample: at the cold state and paranoia 0 the claim's
condition `workingStrength ≥ need` holds (0 ≥ 0), but the oracle returns
`REQUIRES_RESEED | NOT_READY`, not a READY result. -/
theorem isReady_zero_strength_cex :
    isReady baseState (some 0) 0 = Nat.lor REQUIRES_RESEED NOT_READY ∧
    PARANOIA_LEVELS.getD 0 0 ≤ baseState.strength :=
  ⟨by decide, by decide⟩

/-- Claim C4 witness: the characterization applied at the cold state. -/
theorem isReady_characterization_witness :
    (0 : Nat) ≤ 10 ∧ isReady baseState (some 0) 0 = Nat.lor REQUIRES_RESEED NOT_READY := by
  refine ⟨by decide, ?_⟩
  rw [isReady_characterization baseState 0 0 (by decide)]
  decide

set_option maxRecDepth 8000 in
/-- Claim C5 (corrected): a reseed appends a new empty pool exactly when the
pre-increment `reseedCount` is at least `2 ^ len(pools)` (not
`reseedCount + 1`); consequently, starting from a single pool, after pool 0
has been drained 16 times (16 reseeds) `len(pools)` is exactly 4, with pools
appended at the pre-increment boundaries `reseedCount = 2, 4, 8`. -/
theorem reseed_append_rule (st : PrngState) (full : Bool) (env : Env)
    (hlen : st.pools.length ≤ 30) :
    ((reseedFromPools st full env).pools.length =
      st.pools.length + (if 2 ^ st.pools.length ≤ st.reseedCount then 1 else 0)) ∧
    (iterReseed 16 baseState).pools.length = 4 := by
  constructor
  · rw [rfp_pools]
    obtain ⟨hl1, -⟩ := reseedOut_lengths st full env
    rw [hl1]
    have hshl : jsShlOneBy st.pools.length = (2 : Int) ^ st.pools.length := by
      unfold jsShlOneBy
      rw [Nat.mod_eq_of_lt (by omega)]
      apply toInt32_eq
      · positivity
      · have hb : (2 : Int) ^ st.pools.length ≤ 2 ^ 30 :=
          pow_le_pow_right₀ (by norm_num) hlen
        have hb2 : (2 : Int) ^ 30 = 1073741824 := by norm_num
        omega
    rw [hshl]
    have hcast : ((2 : Int) ^ st.pools.length ≤ (st.reseedCount : Int)) ↔
        (2 ^ st.pools.length ≤ st.reseedCount) := by
      constructor
      · intro h
        exact_mod_cast h
      · intro h
        exact_mod_cast h
    by_cases hc : (2 : Int) ^ st.pools.length ≤ (st.reseedCount : Int)
    · rw [if_pos hc, if_pos (hcast.mp hc)]
      simp [hl1]
    · rw [if_neg hc, if_neg (fun hh => hc (hcast.mpr hh))]
      simp [hl1]
  · decide

/-- Claim C5 counterexample: with one pool and pre-increment
`reseedCount = 1` the claim's condition `reseedCount + 1 ≥ 2 ^ len(pools)`
holds, yet the reseed appends no pool. -/
theorem reseed_append_cex :
    (reseedFromPools stC5 false env0).pools.length = 1 ∧
    2 ^ stC5.pools.length ≤ stC5.reseedCount + 1 :=
  ⟨by decide, by decide⟩

/-- Claim C5 witness: the corrected append rule applied at the cold state. -/
theorem reseed_append_rule_witness :
    baseState.pools.length ≤ 30 ∧
    (reseedFromPools baseState false env0).pools.length = 1 := by
  refine ⟨by decide, ?_⟩
  rw [(reseed_append_rule baseState false env0 (by decide)).1]
  decide

/-- Claim C6 (corrected): `addEntropy` on an unsupported data shape signals
the internal-bug error and leaves `pools`, `poolBits`, `poolStrength` and
`eventSeq` untouched — but the call is not entirely state-free: before the
type dispatch it has already advanced the per-source round-robin index (and,
for a new source tag, allocated a source id). -/
theorem addEntropy_unsupported (st : PrngState) (d : EntropyData) (e : Option Int)
    (s : Option String) (env : Env) (hu : unsupportedData d = true) :
    (addEntropy st d e s env).err = true ∧
    (addEntropy st d e s env).state.pools = st.pools ∧
    (addEntropy st d e s env).state.poolEntropy = st.poolEntropy ∧
    (addEntropy st d e s env).state.poolStrength = st.poolStrength ∧
    (addEntropy st d e s env).state.eventId = st.eventId ∧
    (addEntropy st d e s env).state.robins =
      setAssoc st.robins (resolveSource s)
        (((lookupS st.robins (resolveSource s)).getD 0 + 1) % st.pools.length) := by
  cases d with
  | word v => exact Bool.noConfusion hu
  | u32arr elems => exact Bool.noConfusion hu
  | text chars => exact Bool.noConfusion hu
  | arr elems =>
    have hu2 : hasNonNum elems = true := hu
    unfold addEntropy
    dsimp only
    rw [hu2]
    exact ⟨rfl, rfl, rfl, rfl, rfl, rfl⟩
  | obj => exact ⟨rfl, rfl, rfl, rfl, rfl, rfl⟩
  | other => exact ⟨rfl, rfl, rfl, rfl, rfl, rfl⟩

/-- Claim C6 counterexample: a failing `addEntropy` call still changed
`robins` — the state is not entirely unchanged. -/
theorem addEntropy_unsupported_cex :
    (addEntropy stC6 EntropyData.other none none env0).err = true ∧
    (addEntropy stC6 EntropyData.other none none env0).state.robins ≠ stC6.robins :=
  ⟨by decide, by decide⟩

/-- Claim C6 witness: the corrected theorem applied at the concrete state. -/
theorem addEntropy_unsupported_witness :
    unsupportedData EntropyData.other = true ∧
    (addEntropy stC6 EntropyData.other none none env0).err = true :=
  ⟨by decide, (addEntropy_unsupported stC6 EntropyData.other none none env0 (by decide)).1⟩

/-- Claim C7 (corrected): `getProgress` selects the paranoia level by
truthiness, so a supplied `0` falls back to `defaultParanoia` (it is not used
as index 0); for a supplied nonzero in-range level the result is 1 when
`workingStrength ≥ need`, else 1 when `poolStrength > need`, else
`poolStrength / need`.  In particular `getProgress(0)` is not identically
1.0. -/
theorem getProgress_paranoia (st : PrngState) (p : Nat) :
    getProgress st (some 0) = getProgress st none ∧
    (1 ≤ p → p ≤ 10 →
      getProgress st (some p) =
        (if PARANOIA_LEVELS.getD p 0 ≤ st.strength then some 1
         else if PARANOIA_LEVELS.getD p 0 < st.poolStrength then some 1
         else some ((st.poolStrength : ℚ) / ((PARANOIA_LEVELS.getD p 0 : Int) : ℚ)))) := by
  constructor
  · rfl
  · intro h1 h10
    unfold getProgress jsGE jsGT
    interval_cases p <;> simp [PARANOIA_LEVELS]

/-- Claim C7 counterexample: at the cold state (defaultParanoia 6, strength
0, pool strength 0) `getProgress(0)` is 0, not 1.0. -/
theorem getProgress_zero_cex : getProgress stC7 (some 0) = some 0 := by
  norm_num [getProgress, jsGE, jsGT, stC7, baseState, PARANOIA_LEVELS]

/-- Claim C7 witness: the corrected theorem applied at the cold state. -/
theorem getProgress_paranoia_witness : getProgress stC7 (some 1) = some 0 := by
  rw [(getProgress_paranoia stC7 1).2 (by decide) (by decide)]
  norm_num [stC7, baseState, PARANOIA_LEVELS]

/-- Claim C8 (confirmed): every public operation preserves structural
well-formedness, and in particular `poolStrength` equals the sum of the
per-pool entropy counters after the operation. -/
theorem poolStrength_invariant (st : PrngState) (op : Op) (env : Env) (h : WF st) :
    WF (applyOp st op env) ∧
    (applyOp st op env).poolStrength = (applyOp st op env).poolEntropy.sum := by
  have hwf : WF (applyOp st op env) := by
    cases op with
    | addEntropy d e s => exact addEntropy_WF st d e s env h
    | randomWords n p => exact randomWords_WF st n p env h
    | setDefaultParanoia p => exact h
    | startCollectors =>
      show WF (startCollectors st)
      unfold startCollectors
      split
      · exact h
      · exact h
    | stopCollectors =>
      show WF (stopCollectors st)
      unfold stopCollectors
      split
      · exact h
      · exact h
    | addEventListener name cb => cases name <;> exact h
    | removeEventListener name cb => cases name <;> exact h
  exact ⟨hwf, hwf.2.2.2⟩

/-- Claim C8 witness: the invariant holds after a concrete `addEntropy`. -/
theorem poolStrength_invariant_witness :
    WF baseState ∧
    (applyOp baseState (Op.addEntropy (EntropyData.word 7) none none) env0).poolStrength =
      (applyOp baseState (Op.addEntropy (EntropyData.word 7) none none) env0).poolEntropy.sum :=
  ⟨by decide,
   (poolStrength_invariant baseState (Op.addEntropy (EntropyData.word 7) none none) env0
     (by decide)).2⟩

/-- Claim C9 (confirmed): for a paranoia index outside the table (p ≥ 11) the
level lookup is `undefined`, every comparison with it is false, so `isReady`
returns `NOT_READY` without any range error, and `randomWords` consequently
fails with `NotReady`, leaving the state unchanged. -/
theorem isReady_out_of_range (st : PrngState) (n : Nat) (env : Env) (p : Nat)
    (hp : 11 ≤ p) :
    isReady st (some p) env.now = NOT_READY ∧
    randomWords st n (some p) env = (Except.error RWErr.notReady, st) := by
  have hlv : PARANOIA_LEVELS[p]? = none := by
    apply List.getElem?_eq_none
    simp only [PARANOIA_LEVELS, List.length_cons, List.length_nil]
    omega
  have hr : isReady st (some p) env.now = NOT_READY := by
    unfold isReady
    dsimp only
    rw [hlv]
    simp [jsGE]
  exact ⟨hr, randomWords_notReady st n (some p) env hr⟩

/-- Claim C9 witness: the theorem applied at p = 11 on the cold state. -/
theorem isReady_out_of_range_witness :
    (11 : Nat) ≤ 11 ∧
    isReady baseState (some 11) env0.now = NOT_READY ∧
    randomWords baseState 4 (some 11) env0 = (Except.error RWErr.notReady, baseState) :=
  ⟨by decide, (isReady_out_of_range baseState 4 env0 11 (by decide)).1,
   (isReady_out_of_range baseState 4 env0 11 (by decide)).2⟩

/-- Claim C10 (confirmed): `removeEventListener(name, cb)` removes every
registration of the named event whose callback is identical to `cb` —
including duplicates — and keeps every registration of any other callback;
the other event's registry is untouched. -/
theorem removeEventListener_removes_all (st : PrngState) (name : EventName) (cb : Nat)
    (hnd : ((getCallbacks st name).map Prod.fst).Nodup) :
    getCallbacks (removeEventListener st name cb) name =
      (getCallbacks st name).filter (fun e => e.2 != cb) ∧
    ∀ other, other ≠ name →
      getCallbacks (removeEventListener st name cb) other = getCallbacks st other :=
  ⟨removeEventListener_filter st name cb hnd,
   fun other hne => removeEventListener_other st name cb other hne⟩

/-- Claim C10 witness: removing callback 5, registered twice around
callback 7, removes both registrations and keeps 7. -/
theorem removeEventListener_removes_all_witness :
    ((getCallbacks stC10 EventName.progress).map Prod.fst).Nodup ∧
    getCallbacks (removeEventListener stC10 EventName.progress 5) EventName.progress =
      [(1, 7)] := by
  refine ⟨by decide, ?_⟩
  rw [(removeEventListener_removes_all stC10 EventName.progress 5 (by decide)).1]
  decide

end Sjcl
